import Mathlib

/-!
Verification of the LLM-patch canonicalization, policy and apply pipeline of
src/run_code_agent.py.  Strings are modelled as lists of characters (the code
only manipulates ASCII text line by line); every function below is a direct
shallow embedding of the Python function of the same name.  External
collaborators (the chat model, the stdlib JSON decoder, the git subprocess)
are passed in as explicit oracles.
-/

set_option maxRecDepth 20000

/-- Python strings, modelled as lists of characters. -/
abbrev PyStr := List Char

/-- Embed a Lean string literal as a PyStr. -/
def ofStr (s : String) : PyStr := s.data

/-- The whitespace class used by Python str.strip / str.rstrip (ASCII part). -/
def pyIsSpace (c : Char) : Bool :=
  c = ' ' || c = '\t' || c = '\n' || c = '\r' || c = '\x0b' || c = '\x0c'

/-- Python str.rstrip(): remove the maximal run of trailing whitespace. -/
def rstripL : PyStr → PyStr
  | [] => []
  | c :: rest =>
    match rstripL rest with
    | [] => if pyIsSpace c then [] else [c]
    | r => c :: r

/-- Python str.lstrip(): remove the maximal run of leading whitespace. -/
def lstripL : PyStr → PyStr
  | [] => []
  | c :: rest => if pyIsSpace c then lstripL rest else c :: rest

/-- Python str.strip(). -/
def stripL (s : PyStr) : PyStr := lstripL (rstripL s)

/-- Python text.replace listfied for the CRLF normalization: replace every
occurrence of "\r\n" by "\n", scanning left to right. -/
def replaceCRLF : PyStr → PyStr
  | '\r' :: '\n' :: rest => '\n' :: replaceCRLF rest
  | c :: rest => c :: replaceCRLF rest
  | [] => []

/-- Python t.replace of the 7-character fence opener used by
sanitize_llm_patch: delete every occurrence of three backticks followed by
the word diff, scanning left to right. -/
def stripFenceDiff : PyStr → PyStr
  | '`' :: '`' :: '`' :: 'd' :: 'i' :: 'f' :: 'f' :: rest => stripFenceDiff rest
  | c :: rest => c :: stripFenceDiff rest
  | [] => []

/-- Python t.replace deleting every triple-backtick, scanning left to right. -/
def stripFence : PyStr → PyStr
  | '`' :: '`' :: '`' :: rest => stripFence rest
  | c :: rest => c :: stripFence rest
  | [] => []

/-- Python s.find(tok): index of the leftmost occurrence of tok in s. -/
def findSubstrL (tok : PyStr) : PyStr → Option Nat
  | [] => if tok.isPrefixOf ([] : PyStr) then some 0 else none
  | c :: rest =>
    if tok.isPrefixOf (c :: rest) then some 0
    else (findSubstrL tok rest).map (· + 1)

/-- Python tok in s. -/
def containsL (tok s : PyStr) : Bool := (findSubstrL tok s).isSome

/-- Python s.splitlines() restricted to newline separators (the code first
collapses CRLF to LF, and the pipeline never feeds other separator
characters): split at the newline character, without a trailing empty line
for a newline-terminated string. -/
def splitNL : PyStr → List PyStr
  | [] => [[]]
  | '\n' :: rest => [] :: splitNL rest
  | c :: rest =>
    match splitNL rest with
    | [] => [[c]]
    | g :: gs => (c :: g) :: gs

/-- Python s.splitlines() (see splitNL). -/
def pySplitlines (s : PyStr) : List PyStr :=
  if s = [] then []
  else
    let parts := splitNL s
    if parts.getLastD [cDummy] = [] then parts.dropLast else parts
where
  /-- any non-empty default; only compared against the empty line -/
  cDummy : Char := 'x'

/-- "\n".join. -/
def joinNL (lines : List PyStr) : PyStr := List.intercalate ['\n'] lines

/-- Split a text into its lines, each chunk keeping its terminating newline,
so that the chunks concatenate back to the text. -/
def splitAfterNL : PyStr → List PyStr
  | [] => []
  | c :: rest =>
    if c = '\n' then ['\n'] :: splitAfterNL rest
    else
      match splitAfterNL rest with
      | [] => [[c]]
      | g :: gs => (c :: g) :: gs

-- -------------------- path policy (module constants) --------------------

def ALLOWED_PATH_PREFIXES : List PyStr :=
  [ofStr "agents/", ofStr "tests/", ofStr "src/", ofStr ".ai/"]

def ALLOWED_EXACT : List PyStr := [ofStr "README.md"]

def DENY_PATH_PREFIXES : List PyStr := [ofStr ".github/workflows/"]

def DENY_EXACT : List PyStr :=
  [ofStr "pyproject.toml", ofStr "docker-compose.yml", ofStr "Dockerfile"]

/-- src/run_code_agent.py _path_is_allowed. -/
def path_is_allowed (path : PyStr) : Bool :=
  ALLOWED_EXACT.contains path
    || ALLOWED_PATH_PREFIXES.any (fun p => p.isPrefixOf path)

/-- The per-line scan of diff_touches_forbidden: the first offending path, if
any, as the error text the Python function returns. -/
def diff_touches_forbidden_lines : List PyStr → Option PyStr
  | [] => none
  | line :: rest =>
    if (ofStr "+++ b/").isPrefixOf line || (ofStr "--- a/").isPrefixOf line
        || (ofStr "--- /dev/null").isPrefixOf line then
      if (ofStr "--- /dev/null").isPrefixOf line then
        diff_touches_forbidden_lines rest
      else
        let path := line.drop 6
        if path = [] || path = ofStr "/dev/null" then
          diff_touches_forbidden_lines rest
        else if DENY_EXACT.contains path then
          some (ofStr "attempted to modify forbidden file: " ++ path)
        else if DENY_PATH_PREFIXES.any (fun p => p.isPrefixOf path) then
          some (ofStr "attempted to modify forbidden path: " ++ path)
        else if !path_is_allowed path then
          some (ofStr "attempted to modify non-allowed path: " ++ path)
        else diff_touches_forbidden_lines rest
    else diff_touches_forbidden_lines rest

/-- src/run_code_agent.py diff_touches_forbidden. -/
def diff_touches_forbidden (diff_text : PyStr) : Option PyStr :=
  diff_touches_forbidden_lines (pySplitlines diff_text)

-- -------------------- sanitizer --------------------

/-- The intermediate text of sanitize_llm_patch after newline normalization,
outer stripping and markdown-fence removal (lines 222-224 of the source). -/
def sanitizePre (text : PyStr) : PyStr :=
  let t := stripL (replaceCRLF text)
  if containsL (ofStr "```") t then stripL (stripFence (stripFenceDiff t)) else t

/-- src/run_code_agent.py sanitize_llm_patch. -/
def sanitize_llm_patch (text : PyStr) : PyStr :=
  let t := sanitizePre text
  let t2 :=
    match findSubstrL (ofStr "diff --git") t with
    | some i => t.drop i
    | none => t
  if t2 ≠ [] && t2.getLast? ≠ some '\n' then t2 ++ ['\n'] else t2

-- -------------------- canonicalizer --------------------

/-- Does a line match the old-side sentinel regexp of the canonicalizer,
r"^---\s+(?:a/)?dev/null$" ? -/
def oldDevNullMatch (line : PyStr) : Bool :=
  (ofStr "---").isPrefixOf line &&
    (let r := line.drop 3
     let ws := r.takeWhile pyIsSpace
     ws ≠ [] && (r.drop ws.length = ofStr "dev/null"
       || r.drop ws.length = ofStr "a/dev/null"))

/-- re.sub(r"^---\s+(?:a/)?dev/null$", "--- /dev/null", line). -/
def subOldDevNull (line : PyStr) : PyStr :=
  if oldDevNullMatch line then ofStr "--- /dev/null" else line

/-- Does a line match the new-side sentinel regexp,
r"^\+\+\+\s+(?:b/)?dev/null$" ? -/
def newDevNullMatch (line : PyStr) : Bool :=
  (ofStr "+++").isPrefixOf line &&
    (let r := line.drop 3
     let ws := r.takeWhile pyIsSpace
     ws ≠ [] && (r.drop ws.length = ofStr "dev/null"
       || r.drop ws.length = ofStr "b/dev/null"))

/-- re.sub(r"^\+\+\+\s+(?:b/)?dev/null$", "+++ /dev/null", line). -/
def subNewDevNull (line : PyStr) : PyStr :=
  if newDevNullMatch line then ofStr "+++ /dev/null" else line

/-- The placeholder the canonicalizer writes for a bare hunk header. -/
def bareSentinel : PyStr := ofStr "@@ __BARE__ @@"

/-- The loop state of the per-section loop of canonicalize_llm_patch:
in_hunk, pending_bare_hunk, bare_hunk_added and the emitted lines. -/
structure SecState where
  inHunk : Bool
  pendingBare : Bool
  bareAdded : Nat
  out : List PyStr
deriving DecidableEq

/-- One iteration of the per-section loop of canonicalize_llm_patch
(source lines 433-500), in source order. -/
def canonLine (st : SecState) (rawLine : PyStr) : SecState :=
  let line := rstripL rawLine
  if (ofStr "diff --git ").isPrefixOf line then
    { inHunk := false, pendingBare := false, bareAdded := st.bareAdded,
      out := st.out ++ [line] }
  else if (ofStr "--- ").isPrefixOf line then
    { inHunk := false, pendingBare := false, bareAdded := st.bareAdded,
      out := st.out ++ [subOldDevNull line] }
  else if (ofStr "+++ ").isPrefixOf line then
    { inHunk := false, pendingBare := false, bareAdded := st.bareAdded,
      out := st.out ++ [subNewDevNull line] }
  else if (ofStr "@@ ").isPrefixOf line then
    { inHunk := true, pendingBare := false, bareAdded := st.bareAdded,
      out := st.out ++ [line] }
  else if stripL line = ofStr "@@" then
    { inHunk := true, pendingBare := true, bareAdded := 0,
      out := st.out ++ [bareSentinel] }
  else if st.inHunk = false then
    { inHunk := false, pendingBare := st.pendingBare, bareAdded := st.bareAdded,
      out := st.out ++ [line] }
  else if (ofStr "diff --git ").isPrefixOf line || (ofStr "--- ").isPrefixOf line
      || (ofStr "+++ ").isPrefixOf line then
    -- unreachable structural re-check, kept to mirror source lines 478-483
    { inHunk := false, pendingBare := false, bareAdded := st.bareAdded,
      out := st.out ++ [line] }
  else if (ofStr "+").isPrefixOf line || (ofStr "-").isPrefixOf line
      || (ofStr " ").isPrefixOf line || (ofStr "\\").isPrefixOf line then
    { inHunk := st.inHunk, pendingBare := st.pendingBare,
      bareAdded := st.bareAdded +
        (if st.pendingBare && ((ofStr "+").isPrefixOf line || line = ofStr "+")
          then 1 else 0),
      out := st.out ++ [line] }
  else if line = [] then
    { inHunk := st.inHunk, pendingBare := st.pendingBare,
      bareAdded := st.bareAdded + (if st.pendingBare then 1 else 0),
      out := st.out ++ [ofStr "+"] }
  else
    { inHunk := st.inHunk, pendingBare := st.pendingBare,
      bareAdded := st.bareAdded + (if st.pendingBare then 1 else 0),
      out := st.out ++ ['+' :: line] }

/-- The per-section pass of canonicalize_llm_patch: run the line loop, then
substitute the placeholder bare headers using the final counter (source lines
426-509). -/
def canonSection (lines : List PyStr) : List PyStr :=
  let st := lines.foldl canonLine ⟨false, false, 0, []⟩
  let n := if st.bareAdded > 0 then st.bareAdded else 1
  st.out.map (fun ln =>
    if ln = bareSentinel then
      ofStr "@@ -0,0 +1," ++ (Nat.repr n).data ++ ofStr " @@"
    else ln)

/-- Serialize one repaired section: "\n".join(fixed_sec).rstrip() + "\n". -/
def canonSectionText (sec : PyStr) : PyStr :=
  rstripL (joinNL (canonSection (pySplitlines sec))) ++ ['\n']

/-- Group the newline-terminated chunks of a text into the parts produced by
re.split(r"(?m)^(?=diff --git )", text): a new part begins at every line that
starts with the diff header token. -/
def groupSectionsAux : List PyStr → PyStr → List PyStr
  | [], cur => [cur]
  | ch :: rest, cur =>
    if (ofStr "diff --git ").isPrefixOf ch then cur :: groupSectionsAux rest ch
    else groupSectionsAux rest (cur ++ ch)

/-- re.split(r"(?m)^(?=diff --git )", txt) followed by dropping the
whitespace-only parts (source lines 420-421). -/
def splitSections (txt : PyStr) : List PyStr :=
  (groupSectionsAux (splitAfterNL txt) []).filter (fun p => stripL p ≠ [])

/-- src/run_code_agent.py canonicalize_llm_patch. -/
def canonicalize_llm_patch (patch : PyStr) : PyStr :=
  let txt := stripL (replaceCRLF patch)
  if containsL (ofStr "diff --git") txt = false then []
  else
    let txt2 :=
      match findSubstrL (ofStr "diff --git") txt with
      | some i => txt.drop i
      | none => txt
    rstripL (joinNL ((splitSections txt2).map canonSectionText)) ++ ['\n']

-- -------------------- apply engine --------------------

/-- Result of one git apply subprocess: exit status and diagnostic stream. -/
structure ProcResult where
  ok : Bool
  stderr : PyStr

/-- The two version-control subprocess invocations of apply_unified_diff,
as an oracle of the canonical diff piped to their stdin: strict
(git apply --whitespace=fix) and fuzzy (git apply --3way --whitespace=fix). -/
structure GitOracle where
  strict : PyStr → ProcResult
  fuzzy : PyStr → ProcResult

/-- The message of the RuntimeError raised by apply_unified_diff on double
failure (source lines 538-542). -/
def applyFailMsg (e1 e2 : PyStr) : PyStr :=
  stripL (ofStr "git apply failed:\n" ++ stripL e1
    ++ ofStr "\n---\n3way failed:\n" ++ stripL e2)

/-- The observable behaviour of one apply_unified_diff call: its outcome
(ok, or the raised RuntimeError message) and which subprocesses ran. -/
structure ApplyTrace where
  result : Except PyStr Unit
  strictInvoked : Bool
  fuzzyInvoked : Bool

/-- src/run_code_agent.py apply_unified_diff, against a git oracle. -/
def apply_unified_diff (g : GitOracle) (diff_text : PyStr) : ApplyTrace :=
  let d := canonicalize_llm_patch diff_text
  let p := g.strict d
  if p.ok then ⟨Except.ok (), true, false⟩
  else
    let p2 := g.fuzzy d
    if p2.ok then ⟨Except.ok (), true, true⟩
    else ⟨Except.error (applyFailMsg p.stderr p2.stderr), true, true⟩

-- -------------------- extraction and the repair loop controller --------------------

/-- Model of the stdlib json.loads step of extract_patch_from_llm: some
(patch, notes) when the text parses as a dict (with the patch and notes
values of obj.get, defaulted to the empty string), none when json.loads or
the dict access raises.  The decoder is an external library, supplied as an
oracle. -/
abbrev JsonDecode := PyStr → Option (PyStr × PyStr)

/-- The segment matched by re.search(r"\{.*\}", raw, re.DOTALL): from the
first opening brace to the last closing brace, when the latter comes after
the former. -/
def braceSpan (s : PyStr) : Option PyStr :=
  match findSubstrL ['{'] s, (findSubstrL ['}'] s.reverse).map (s.length - 1 - ·) with
  | some i, some j => if i < j then some ((s.drop i).take (j - i + 1)) else none
  | _, _ => none

/-- src/run_code_agent.py extract_patch_from_llm, against a JSON oracle.
Returns (patch, notes). -/
def extract_patch_from_llm (jd : JsonDecode) (text : PyStr) : PyStr × PyStr :=
  let raw := stripL text
  let fb3 : PyStr × PyStr :=
    match findSubstrL (ofStr "diff --git") raw with
    | some i => (stripL (raw.drop i), [])
    | none => ([], [])
  let br2 : PyStr × PyStr :=
    match braceSpan raw with
    | some seg =>
      match jd seg with
      | some (p, n) => (stripL p, stripL n)
      | none => fb3
    | none => fb3
  if (['{'] : PyStr).isPrefixOf raw then
    match jd raw with
    | some (p, n) => (stripL p, stripL n)
    | none => br2
  else br2

/-- The inner llm_generate_patch of attempt_llm_patch applied to one raw
response: extract, sanitize, and the "diff --git" sanity check.  Empty
result means the response yielded no usable patch. -/
def llm_generate_patch (jd : JsonDecode) (raw : PyStr) : PyStr :=
  let patch := (extract_patch_from_llm jd raw).1
  let patch2 := sanitize_llm_patch patch
  if patch2 = [] || containsL (ofStr "diff --git") patch2 = false then []
  else patch2

/-- src/run_code_agent.py _preview. -/
def preview (t : PyStr) : PyStr :=
  let s := stripL t
  if s.length ≤ 500 then s else s.take 500 ++ ofStr "..."

/-- The external collaborators of attempt_llm_patch: the n-th chat
completion (raw text and llm mode), the JSON decoder, and the git oracle of
the n-th apply_unified_diff call. -/
structure Oracles where
  chat : Nat → PyStr × PyStr
  jd : JsonDecode
  git : Nat → GitOracle

/-- The observable outcome of one attempt_llm_patch run: the returned tuple
(applied, mode, message, raw preview) plus the number of generation requests
and of apply_unified_diff calls issued. -/
structure AttemptResult where
  applied : Bool
  llmMode : PyStr
  message : PyStr
  rawPreview : PyStr
  genCalls : Nat
  applyCalls : Nat
deriving DecidableEq

/-- Steps 3-5 of attempt_llm_patch (forbid check, apply, repair retry),
entered with the generated diff, its llm mode and raw text, and the number
of generation requests made so far (source lines 627-683). -/
def attemptRest (o : Oracles) (d mode rawUsed : PyStr) (gens : Nat) : AttemptResult :=
  match diff_touches_forbidden d with
  | some reason =>
    ⟨false, mode, ofStr "patch rejected: " ++ reason, preview rawUsed, gens, 0⟩
  | none =>
    match (apply_unified_diff (o.git 0) d).result with
    | Except.ok _ =>
      ⟨true, mode, ofStr "patch applied", preview rawUsed, gens, 1⟩
    | Except.error e =>
      let raw3 := (o.chat gens).1
      let mode3 := (o.chat gens).2
      let d3 := llm_generate_patch o.jd raw3
      if d3 = [] then
        ⟨false, mode3,
          ofStr "failed to apply patch; repair retry produced no diff. original error: " ++ e,
          preview raw3, gens + 1, 1⟩
      else
        match diff_touches_forbidden d3 with
        | some r2 =>
          ⟨false, mode3, ofStr "repair patch rejected: " ++ r2, preview raw3, gens + 1, 1⟩
        | none =>
          match (apply_unified_diff (o.git 1) d3).result with
          | Except.ok _ =>
            ⟨true, mode3, ofStr "patch applied (repair retry)", preview raw3, gens + 1, 2⟩
          | Except.error e2 =>
            ⟨false, mode3,
              ofStr "failed to apply patch after repair retry: " ++ e2,
              preview raw3, gens + 1, 2⟩

/-- src/run_code_agent.py attempt_llm_patch, against the oracles: main
generation, retry-if-empty, then steps 3-5 (source lines 595-683). -/
def attempt_llm_patch (o : Oracles) : AttemptResult :=
  let raw1 := (o.chat 0).1
  let d1 := llm_generate_patch o.jd raw1
  if d1 = [] then
    let raw2 := (o.chat 1).1
    let d2 := llm_generate_patch o.jd raw2
    if d2 = [] then
      ⟨false, (o.chat 1).2, ofStr "no unified diff produced (sanity check failed)",
        preview raw2, 2, 0⟩
    else attemptRest o d2 ((o.chat 1).2) raw2 2
  else attemptRest o d1 ((o.chat 0).2) raw1 1

-- -------------------- line classification (for the repair theorems) --------------------

/-- A line that the per-section loop treats as structural (it opens or
closes a hunk): the five structural tests of canonLine, on the rstripped
line. -/
def isStructuralLine (l : PyStr) : Bool :=
  let r := rstripL l
  (ofStr "diff --git ").isPrefixOf r || (ofStr "--- ").isPrefixOf r
    || (ofStr "+++ ").isPrefixOf r || (ofStr "@@ ").isPrefixOf r
    || stripL r = ofStr "@@"

/-- What the in-hunk arm of canonLine emits for a non-structural line. -/
def inHunkRewrite (l : PyStr) : PyStr :=
  let r := rstripL l
  if (ofStr "+").isPrefixOf r || (ofStr "-").isPrefixOf r
      || (ofStr " ").isPrefixOf r || (ofStr "\\").isPrefixOf r then r
  else if r = [] then ofStr "+"
  else '+' :: r

/-- Whether the in-hunk arm of canonLine counts a non-structural line toward
bare_hunk_added: addition-prefixed lines, empty lines and unprefixed lines
count; removal, context and no-newline-marker lines do not. -/
def hunkAdditionCount (l : PyStr) : Bool :=
  let r := rstripL l
  if (ofStr "+").isPrefixOf r then true
  else if (ofStr "-").isPrefixOf r || (ofStr " ").isPrefixOf r
      || (ofStr "\\").isPrefixOf r then false
  else true

/-- A line that makes the per-section loop enter a hunk: a full hunk header
or a bare hunk marker. -/
def isHunkOpenerLine (l : PyStr) : Bool :=
  let r := rstripL l
  (ofStr "@@ ").isPrefixOf r || stripL r = ofStr "@@"

/-- What canonLine emits for a line scanned outside any hunk: the rstripped
line, with the deletion/creation sentinel normalized on old/new markers. -/
def canonQuietLine (l : PyStr) : PyStr :=
  let r := rstripL l
  if (ofStr "--- ").isPrefixOf r then subOldDevNull r
  else if (ofStr "+++ ").isPrefixOf r then subNewDevNull r
  else r


-- -------------------- concrete instances used by witnesses --------------------

/-- A git oracle on which both subprocesses fail, with fixed diagnostics. -/
def gitC9 : GitOracle :=
  ⟨fun _ => ⟨false, ofStr "strict failed: corrupt patch"⟩,
   fun _ => ⟨false, ofStr "3way failed: no index"⟩⟩

/-- A git oracle on which both subprocesses succeed. -/
def gitOk : GitOracle := ⟨fun _ => ⟨true, []⟩, fun _ => ⟨true, []⟩⟩

/-- Oracles whose first chat response is a patch touching the deny-listed
exact file Dockerfile. -/
def oracleC5 : Oracles :=
  ⟨fun _ => (ofStr "diff --git a/Dockerfile b/Dockerfile\n--- a/Dockerfile\n+++ b/Dockerfile\n@@ -1 +1 @@\n-old\n+new\n",
      ofStr "chat"),
   fun _ => none,
   fun _ => gitOk⟩

/-- Oracles whose first chat response is a patch under the deny-listed
path prefix .github/workflows/. -/
def oracleC8 : Oracles :=
  ⟨fun _ => (ofStr "diff --git a/.github/workflows/ci.yml b/.github/workflows/ci.yml\n--- a/.github/workflows/ci.yml\n+++ b/.github/workflows/ci.yml\n@@ -1 +1 @@\n-a\n+b\n",
      ofStr "chat"),
   fun _ => none,
   fun _ => gitOk⟩

/-- Oracles whose first chat response is a patch touching the deny-listed
exact file pyproject.toml. -/
def oracleC8w : Oracles :=
  ⟨fun _ => (ofStr "diff --git a/pyproject.toml b/pyproject.toml\n--- a/pyproject.toml\n+++ b/pyproject.toml\n@@ -1 +1 @@\n-a\n+b\n",
      ofStr "json"),
   fun _ => none,
   fun _ => gitOk⟩

/-- A two-file diff; its canonicalization witnesses the idempotence defect. -/
def patchC2 : PyStr :=
  ofStr "diff --git a/a b/a\n--- /dev/null\n+++ b/a\n@@ -0,0 +1,1 @@\n+x\ndiff --git a/b b/b\n--- /dev/null\n+++ b/b\n@@ -0,0 +1,1 @@\n+y\n"

/-- A modification (non-new-file) section with an empty line inside its hunk. -/
def patchC3 : PyStr :=
  ofStr "diff --git a/f b/f\n--- a/f\n+++ b/f\n@@ -1,2 +1,2 @@\n x\n\n z"


-- -------------------- helper lemmas --------------------

theorem isPrefixOf_head (p s : PyStr) (hp : p ≠ []) (h : p.isPrefixOf s = true) :
    s.head? = p.head? := by
  cases p with
  | nil => exact absurd rfl hp
  | cons c cs =>
    cases s with
    | nil => simp [List.isPrefixOf] at h
    | cons b bs =>
      simp only [List.isPrefixOf, Bool.and_eq_true, beq_iff_eq] at h
      simp [h.1]

theorem not_isPrefixOf_of_head (p s : PyStr) (c d : Char)
    (hs : s.head? = some c) (hp : p.head? = some d) (hne : c ≠ d) :
    p.isPrefixOf s = false := by
  cases hc : p.isPrefixOf s with
  | false => rfl
  | true =>
    have hpne : p ≠ [] := by intro h0; rw [h0] at hp; cases hp
    have h2 := isPrefixOf_head p s hpne hc
    rw [hs, hp] at h2
    exact (hne (Option.some.inj h2)).elim

theorem ne_of_head_ne (x y : PyStr) (c d : Char)
    (hx : x.head? = some c) (hy : y.head? = some d) (hne : c ≠ d) : x ≠ y := by
  intro h
  rw [h, hy] at hx
  exact hne (Option.some.inj hx).symm

theorem rstripL_head (l : PyStr) (c : Char) (hc : pyIsSpace c = false)
    (h : l.head? = some c) : (rstripL l).head? = some c := by
  cases l with
  | nil => cases h
  | cons a t =>
    have ha : a = c := Option.some.inj h
    subst ha
    cases hr : rstripL t with
    | nil => simp [rstripL, hr, hc]
    | cons x xs => simp [rstripL, hr]

theorem stripL_head (l : PyStr) (c : Char) (hc : pyIsSpace c = false)
    (h : l.head? = some c) : (stripL l).head? = some c := by
  have h1 := rstripL_head l c hc h
  cases hr : rstripL l with
  | nil => rw [hr] at h1; cases h1
  | cons a t =>
    rw [hr] at h1
    have ha : a = c := Option.some.inj h1
    subst ha
    simp [stripL, hr, lstripL, hc]

theorem subOldDevNull_head (r : PyStr) (h : r.head? = some '-') :
    (subOldDevNull r).head? = some '-' := by
  unfold subOldDevNull
  split
  · decide
  · exact h

theorem subNewDevNull_head (r : PyStr) (h : r.head? = some '+') :
    (subNewDevNull r).head? = some '+' := by
  unfold subNewDevNull
  split
  · decide
  · exact h

theorem canonLine_dg (st : SecState) (l : PyStr)
    (h : (ofStr "diff --git ").isPrefixOf (rstripL l) = true) :
    canonLine st l = ⟨false, false, st.bareAdded, st.out ++ [rstripL l]⟩ := by
  simp [canonLine, h]

theorem canonLine_old (st : SecState) (l : PyStr)
    (h : (ofStr "--- ").isPrefixOf (rstripL l) = true) :
    canonLine st l =
      ⟨false, false, st.bareAdded, st.out ++ [subOldDevNull (rstripL l)]⟩ := by
  have hh : (rstripL l).head? = some '-' := by
    rw [isPrefixOf_head _ _ (by decide) h]; rfl
  have h1 : (ofStr "diff --git ").isPrefixOf (rstripL l) = false :=
    not_isPrefixOf_of_head _ _ '-' 'd' hh (by decide) (by decide)
  simp [canonLine, h1, h]

theorem canonLine_new (st : SecState) (l : PyStr)
    (h : (ofStr "+++ ").isPrefixOf (rstripL l) = true) :
    canonLine st l =
      ⟨false, false, st.bareAdded, st.out ++ [subNewDevNull (rstripL l)]⟩ := by
  have hh : (rstripL l).head? = some '+' := by
    rw [isPrefixOf_head _ _ (by decide) h]; rfl
  have h1 : (ofStr "diff --git ").isPrefixOf (rstripL l) = false :=
    not_isPrefixOf_of_head _ _ '+' 'd' hh (by decide) (by decide)
  have h2 : (ofStr "--- ").isPrefixOf (rstripL l) = false :=
    not_isPrefixOf_of_head _ _ '+' '-' hh (by decide) (by decide)
  simp [canonLine, h1, h2, h]

theorem canonLine_bareMarker (st : SecState) :
    canonLine st (ofStr "@@") = ⟨true, true, 0, st.out ++ [bareSentinel]⟩ := rfl

theorem canonLine_inHunk (st : SecState) (l : PyStr)
    (hin : st.inHunk = true) (hl : isStructuralLine l = false) :
    canonLine st l =
      ⟨st.inHunk, st.pendingBare,
        st.bareAdded + (if st.pendingBare && hunkAdditionCount l then 1 else 0),
        st.out ++ [inHunkRewrite l]⟩ := by
  simp only [isStructuralLine, Bool.or_eq_false_iff, decide_eq_false_iff_not] at hl
  obtain ⟨⟨⟨⟨h1, h2⟩, h3⟩, h4⟩, h5⟩ := hl
  by_cases hp : (ofStr "+").isPrefixOf (rstripL l) = true
  · simp [canonLine, inHunkRewrite, hunkAdditionCount, h1, h2, h3, h4, h5, hin, hp]
  · by_cases hm : (ofStr "-").isPrefixOf (rstripL l) = true
    · have hh : (rstripL l).head? = some '-' := by
        rw [isPrefixOf_head _ _ (by decide) hm]; rfl
      have hne : rstripL l ≠ ofStr "+" :=
        ne_of_head_ne _ _ '-' '+' hh (by decide) (by decide)
      simp [canonLine, inHunkRewrite, hunkAdditionCount, h1, h2, h3, h4, h5, hin,
        hp, hm, hne]
    · by_cases hs : (ofStr " ").isPrefixOf (rstripL l) = true
      · have hh : (rstripL l).head? = some ' ' := by
          rw [isPrefixOf_head _ _ (by decide) hs]; rfl
        have hne : rstripL l ≠ ofStr "+" :=
          ne_of_head_ne _ _ ' ' '+' hh (by decide) (by decide)
        simp [canonLine, inHunkRewrite, hunkAdditionCount, h1, h2, h3, h4, h5, hin,
          hp, hm, hs, hne]
      · by_cases hb : (ofStr "\\").isPrefixOf (rstripL l) = true
        · have hh : (rstripL l).head? = some '\\' := by
            rw [isPrefixOf_head _ _ (by decide) hb]; rfl
          have hne : rstripL l ≠ ofStr "+" :=
            ne_of_head_ne _ _ '\\' '+' hh (by decide) (by decide)
          simp [canonLine, inHunkRewrite, hunkAdditionCount, h1, h2, h3, h4, h5,
            hin, hp, hm, hs, hb, hne]
        · by_cases he : rstripL l = []
          · simp [canonLine, inHunkRewrite, hunkAdditionCount, h1, h2, h3, h4, h5,
              hin, hp, hm, hs, hb, he,
              show (ofStr "diff --git " : PyStr) ≠ [] from by decide,
              show (ofStr "--- " : PyStr) ≠ [] from by decide,
              show (ofStr "+++ " : PyStr) ≠ [] from by decide,
              show (ofStr "@@ " : PyStr) ≠ [] from by decide,
              show (ofStr "+" : PyStr) ≠ [] from by decide,
              show (ofStr "-" : PyStr) ≠ [] from by decide,
              show (ofStr " " : PyStr) ≠ [] from by decide,
              show (ofStr "\\" : PyStr) ≠ [] from by decide,
              show stripL ([] : PyStr) ≠ ofStr "@@" from by decide]
          · simp [canonLine, inHunkRewrite, hunkAdditionCount, h1, h2, h3, h4, h5,
              hin, hp, hm, hs, hb, he]

theorem foldl_canonLine_body (body : List PyStr) (k : Nat) (out : List PyStr)
    (hbody : ∀ l ∈ body, isStructuralLine l = false) :
    body.foldl canonLine ⟨true, true, k, out⟩ =
      ⟨true, true, k + body.countP hunkAdditionCount,
        out ++ body.map inHunkRewrite⟩ := by
  induction body generalizing k out with
  | nil => simp
  | cons l ls ih =>
    rw [List.foldl_cons, canonLine_inHunk ⟨true, true, k, out⟩ l rfl (hbody l (by simp))]
    dsimp only
    rw [ih _ _ (fun x hx => hbody x (by simp [hx]))]
    rcases hc : hunkAdditionCount l <;> simp [List.countP_cons, hc] <;> omega

theorem inHunkRewrite_ne_sentinel (l : PyStr) : inHunkRewrite l ≠ bareSentinel := by
  unfold inHunkRewrite
  by_cases hp : (ofStr "+").isPrefixOf (rstripL l) = true
  · have hh : (rstripL l).head? = some '+' := by
      rw [isPrefixOf_head _ _ (by decide) hp]; rfl
    simp only [hp]
    simp only [Bool.true_or, if_true]
    exact ne_of_head_ne _ _ '+' '@' hh (by decide) (by decide)
  · by_cases hm : (ofStr "-").isPrefixOf (rstripL l) = true
    · have hh : (rstripL l).head? = some '-' := by
        rw [isPrefixOf_head _ _ (by decide) hm]; rfl
      simp only [hp, hm]
      simp only [Bool.false_or, Bool.true_or, if_true]
      exact ne_of_head_ne _ _ '-' '@' hh (by decide) (by decide)
    · by_cases hs : (ofStr " ").isPrefixOf (rstripL l) = true
      · have hh : (rstripL l).head? = some ' ' := by
          rw [isPrefixOf_head _ _ (by decide) hs]; rfl
        simp only [hp, hm, hs]
        simp only [Bool.false_or, Bool.true_or, if_true]
        exact ne_of_head_ne _ _ ' ' '@' hh (by decide) (by decide)
      · by_cases hb : (ofStr "\\").isPrefixOf (rstripL l) = true
        · have hh : (rstripL l).head? = some '\\' := by
            rw [isPrefixOf_head _ _ (by decide) hb]; rfl
          simp only [hp, hm, hs, hb]
          simp only [Bool.false_or, if_true]
          exact ne_of_head_ne _ _ '\\' '@' hh (by decide) (by decide)
        · by_cases he : rstripL l = []
          · simp [hp, hm, hs, hb, he]
            decide
          · simp [hp, hm, hs, hb, he]
            exact ne_of_head_ne _ _ '+' '@' rfl (by decide) (by decide)

theorem map_fixBare_of_no_sentinel (H : PyStr) (ls : List PyStr)
    (h : ∀ x ∈ ls, x ≠ bareSentinel) :
    ls.map (fun ln => if ln = bareSentinel then H else ln) = ls := by
  induction ls with
  | nil => rfl
  | cons a t ih =>
    rw [List.map_cons, if_neg (h a (by simp)), ih (fun x hx => h x (by simp [hx]))]

/-- C1: for a single new-file section with a bare hunk marker, the
canonicalizer replaces the marker with the synthesized header
old-start=0, old-len=0, new-start=1, new-len=N, where N is the number of
addition-shaped body lines, and the body lines are emitted through the
in-hunk rewrite. -/
theorem canonicalize_bare_header_counts_additions
    (dg om nm : PyStr) (body : List PyStr)
    (hdg : (ofStr "diff --git ").isPrefixOf (rstripL dg) = true)
    (hom : (ofStr "--- ").isPrefixOf (rstripL om) = true)
    (hnm : (ofStr "+++ ").isPrefixOf (rstripL nm) = true)
    (hbody : ∀ l ∈ body, isStructuralLine l = false)
    (hpos : 0 < body.countP hunkAdditionCount) :
    canonSection (dg :: om :: nm :: ofStr "@@" :: body) =
      rstripL dg :: subOldDevNull (rstripL om) :: subNewDevNull (rstripL nm) ::
        (ofStr "@@ -0,0 +1," ++ (Nat.repr (body.countP hunkAdditionCount)).data
          ++ ofStr " @@") :: body.map inHunkRewrite := by
  have hne1 : rstripL dg ≠ bareSentinel :=
    ne_of_head_ne _ _ 'd' '@'
      (by rw [isPrefixOf_head _ _ (by decide) hdg]; rfl) (by decide) (by decide)
  have hne2 : subOldDevNull (rstripL om) ≠ bareSentinel :=
    ne_of_head_ne _ _ '-' '@'
      (subOldDevNull_head _ (by rw [isPrefixOf_head _ _ (by decide) hom]; rfl))
      (by decide) (by decide)
  have hne3 : subNewDevNull (rstripL nm) ≠ bareSentinel :=
    ne_of_head_ne _ _ '+' '@'
      (subNewDevNull_head _ (by rw [isPrefixOf_head _ _ (by decide) hnm]; rfl))
      (by decide) (by decide)
  unfold canonSection
  simp only [List.foldl_cons]
  rw [canonLine_dg _ _ hdg]
  dsimp only
  rw [canonLine_old _ _ hom]
  dsimp only
  rw [canonLine_new _ _ hnm]
  dsimp only
  rw [canonLine_bareMarker]
  dsimp only
  rw [foldl_canonLine_body body _ _ hbody]
  dsimp only
  simp only [Nat.zero_add, List.nil_append, List.append_assoc, List.singleton_append,
    List.cons_append, List.map_cons, List.map_append, List.nil_append]
  rw [if_pos hpos]
  rw [map_fixBare_of_no_sentinel _ _ (fun x hx => by
      obtain ⟨l, _, rfl⟩ := List.mem_map.mp hx
      exact inHunkRewrite_ne_sentinel l)]
  simp [hne1, hne2, hne3]

/-- C10: a bare hunk marker whose body yields zero counted addition lines
gets the fallback header new-len=1, not new-len=0. -/
theorem canonicalize_bare_header_zero_fallback
    (dg om nm : PyStr) (body : List PyStr)
    (hdg : (ofStr "diff --git ").isPrefixOf (rstripL dg) = true)
    (hom : (ofStr "--- ").isPrefixOf (rstripL om) = true)
    (hnm : (ofStr "+++ ").isPrefixOf (rstripL nm) = true)
    (hbody : ∀ l ∈ body, isStructuralLine l = false)
    (hzero : ∀ l ∈ body, hunkAdditionCount l = false) :
    canonSection (dg :: om :: nm :: ofStr "@@" :: body) =
      rstripL dg :: subOldDevNull (rstripL om) :: subNewDevNull (rstripL nm) ::
        ofStr "@@ -0,0 +1,1 @@" :: body.map inHunkRewrite := by
  have hc0 : body.countP hunkAdditionCount = 0 := by
    rw [List.countP_eq_zero]
    intro a ha
    simp [hzero a ha]
  have hne1 : rstripL dg ≠ bareSentinel :=
    ne_of_head_ne _ _ 'd' '@'
      (by rw [isPrefixOf_head _ _ (by decide) hdg]; rfl) (by decide) (by decide)
  have hne2 : subOldDevNull (rstripL om) ≠ bareSentinel :=
    ne_of_head_ne _ _ '-' '@'
      (subOldDevNull_head _ (by rw [isPrefixOf_head _ _ (by decide) hom]; rfl))
      (by decide) (by decide)
  have hne3 : subNewDevNull (rstripL nm) ≠ bareSentinel :=
    ne_of_head_ne _ _ '+' '@'
      (subNewDevNull_head _ (by rw [isPrefixOf_head _ _ (by decide) hnm]; rfl))
      (by decide) (by decide)
  unfold canonSection
  simp only [List.foldl_cons]
  rw [canonLine_dg _ _ hdg]
  dsimp only
  rw [canonLine_old _ _ hom]
  dsimp only
  rw [canonLine_new _ _ hnm]
  dsimp only
  rw [canonLine_bareMarker]
  dsimp only
  rw [foldl_canonLine_body body _ _ hbody]
  dsimp only
  rw [hc0]
  simp only [Nat.zero_add, List.nil_append, List.append_assoc, List.singleton_append,
    List.cons_append, List.map_cons, List.map_append, List.nil_append,
    show (if (0:Nat) > 0 then (0:Nat) else 1) = 1 from by decide]
  rw [map_fixBare_of_no_sentinel _ _ (fun x hx => by
      obtain ⟨l, _, rfl⟩ := List.mem_map.mp hx
      exact inHunkRewrite_ne_sentinel l)]
  simp [hne1, hne2, hne3,
    show (ofStr "@@ -0,0 +1," ++ ((Nat.repr 1).data ++ ofStr " @@") : PyStr)
      = ofStr "@@ -0,0 +1,1 @@" from by decide]

theorem canonLine_quiet (st : SecState) (l : PyStr)
    (hin : st.inHunk = false) (hpend : st.pendingBare = false)
    (hl : isHunkOpenerLine l = false) :
    canonLine st l = ⟨false, false, st.bareAdded, st.out ++ [canonQuietLine l]⟩ := by
  simp only [isHunkOpenerLine, Bool.or_eq_false_iff, decide_eq_false_iff_not] at hl
  obtain ⟨h4, h5⟩ := hl
  by_cases h1 : (ofStr "diff --git ").isPrefixOf (rstripL l) = true
  · have hh : (rstripL l).head? = some 'd' := by
      rw [isPrefixOf_head _ _ (by decide) h1]; rfl
    have hm : (ofStr "--- ").isPrefixOf (rstripL l) = false :=
      not_isPrefixOf_of_head _ _ 'd' '-' hh (by decide) (by decide)
    have hp : (ofStr "+++ ").isPrefixOf (rstripL l) = false :=
      not_isPrefixOf_of_head _ _ 'd' '+' hh (by decide) (by decide)
    simp [canonLine, canonQuietLine, h1, hm, hp]
  · by_cases h2 : (ofStr "--- ").isPrefixOf (rstripL l) = true
    · have hh : (rstripL l).head? = some '-' := by
        rw [isPrefixOf_head _ _ (by decide) h2]; rfl
      have hp : (ofStr "+++ ").isPrefixOf (rstripL l) = false :=
        not_isPrefixOf_of_head _ _ '-' '+' hh (by decide) (by decide)
      simp [canonLine, canonQuietLine, h1, h2, hp]
    · by_cases h3 : (ofStr "+++ ").isPrefixOf (rstripL l) = true
      · simp [canonLine, canonQuietLine, h1, h2, h3]
      · simp [canonLine, canonQuietLine, h1, h2, h3, h4, h5, hin, hpend]

theorem foldl_canonLine_quiet (lines : List PyStr) (k : Nat) (out : List PyStr)
    (h : ∀ l ∈ lines, isHunkOpenerLine l = false) :
    lines.foldl canonLine ⟨false, false, k, out⟩ =
      ⟨false, false, k, out ++ lines.map canonQuietLine⟩ := by
  induction lines generalizing out with
  | nil => simp
  | cons l ls ih =>
    rw [List.foldl_cons, canonLine_quiet ⟨false, false, k, out⟩ l rfl rfl (h l (by simp))]
    dsimp only
    rw [ih _ (fun x hx => h x (by simp [hx]))]
    simp

theorem canonQuietLine_ne_sentinel (l : PyStr) (hl : isHunkOpenerLine l = false) :
    canonQuietLine l ≠ bareSentinel := by
  simp only [isHunkOpenerLine, Bool.or_eq_false_iff, decide_eq_false_iff_not] at hl
  obtain ⟨h4, _⟩ := hl
  unfold canonQuietLine
  by_cases h2 : (ofStr "--- ").isPrefixOf (rstripL l) = true
  · simp only [h2, if_true]
    exact ne_of_head_ne _ _ '-' '@'
      (subOldDevNull_head _ (by rw [isPrefixOf_head _ _ (by decide) h2]; rfl))
      (by decide) (by decide)
  · by_cases h3 : (ofStr "+++ ").isPrefixOf (rstripL l) = true
    · simp only [h2, h3, if_true, Bool.false_eq_true, if_false]
      exact ne_of_head_ne _ _ '+' '@'
        (subNewDevNull_head _ (by rw [isPrefixOf_head _ _ (by decide) h3]; rfl))
        (by decide) (by decide)
    · simp only [h2, h3, Bool.false_eq_true, if_false]
      intro he
      rw [he] at h4
      exact absurd h4 (by decide)

/-- C4 (amended): a section with no hunk opener (so zero hunks) is not
rejected: it is passed through line by line (right-stripped, with the
deletion/creation sentinel spelling normalized); canonicalize_llm_patch
raises no error on it. -/
theorem canonicalize_zero_hunk_section_passthrough (lines : List PyStr)
    (h : ∀ l ∈ lines, isHunkOpenerLine l = false) :
    canonSection lines = lines.map canonQuietLine := by
  unfold canonSection
  rw [foldl_canonLine_quiet lines 0 [] h]
  dsimp only
  rw [map_fixBare_of_no_sentinel _ _ (fun x hx => by
    obtain ⟨l, hl, rfl⟩ := List.mem_map.mp hx
    exact canonQuietLine_ne_sentinel l (h l hl))]
  simp

/-- C3 (amended): inside a hunk, a line that is empty after right-stripping
is always rewritten to a bare addition prefix, whether or not the section is
a new-file section, and it is never dropped. -/
theorem canonLine_empty_line_always_addition (st : SecState) (l : PyStr)
    (hin : st.inHunk = true) (hl : rstripL l = []) :
    canonLine st l =
      ⟨st.inHunk, st.pendingBare,
        st.bareAdded + (if st.pendingBare then 1 else 0),
        st.out ++ [ofStr "+"]⟩ := by
  simp [canonLine, hl, hin,
    show (ofStr "diff --git " : PyStr) ≠ [] from by decide,
    show (ofStr "--- " : PyStr) ≠ [] from by decide,
    show (ofStr "+++ " : PyStr) ≠ [] from by decide,
    show (ofStr "@@ " : PyStr) ≠ [] from by decide,
    show (ofStr "+" : PyStr) ≠ [] from by decide,
    show (ofStr "-" : PyStr) ≠ [] from by decide,
    show (ofStr " " : PyStr) ≠ [] from by decide,
    show (ofStr "\\" : PyStr) ≠ [] from by decide,
    show stripL ([] : PyStr) ≠ ofStr "@@" from by decide]

theorem findSubstrL_drop (tok s : PyStr) (i : Nat)
    (h : findSubstrL tok s = some i) : tok.isPrefixOf (s.drop i) = true := by
  induction s generalizing i with
  | nil =>
    unfold findSubstrL at h
    split at h
    · rename_i hc
      cases h
      simpa using hc
    · cases h
  | cons c rest ih =>
    unfold findSubstrL at h
    split at h
    · rename_i hc
      cases h
      simpa using hc
    · cases hf : findSubstrL tok rest with
      | none => rw [hf] at h; cases h
      | some j =>
        rw [hf] at h
        cases h
        simpa using ih j hf

theorem isPrefixOf_append_tail (p s u : PyStr) (h : p.isPrefixOf s = true) :
    p.isPrefixOf (s ++ u) = true := by
  induction p generalizing s with
  | nil => simp [List.isPrefixOf]
  | cons c cs ih =>
    cases s with
    | nil => simp [List.isPrefixOf] at h
    | cons b bs =>
      simp only [List.isPrefixOf, List.cons_append, Bool.and_eq_true] at h ⊢
      exact ⟨h.1, ih bs h.2⟩

/-- C6 (amended): whenever the diff header token occurs in the normalized,
fence-stripped text, the sanitizer output begins with the token.  (When the
token does not occur, the text is passed through, not emptied: see the
counterexample.) -/
theorem sanitize_starts_at_token (text : PyStr)
    (h : containsL (ofStr "diff --git") (sanitizePre text) = true) :
    (ofStr "diff --git").isPrefixOf (sanitize_llm_patch text) = true := by
  unfold containsL at h
  cases hf : findSubstrL (ofStr "diff --git") (sanitizePre text) with
  | none => rw [hf] at h; cases h
  | some i =>
    have hp := findSubstrL_drop _ _ i hf
    unfold sanitize_llm_patch
    dsimp only
    rw [hf]
    dsimp only
    split
    · exact isPrefixOf_append_tail _ _ _ hp
    · exact hp

/-- C6 counterexample: for an input in which the diff header token never
occurs, the sanitizer does NOT return an empty SanitizedText: it returns the
text itself (newline-terminated), which does not begin with the token. -/
theorem sanitize_no_token_not_empty :
    sanitize_llm_patch (ofStr "hello") = ofStr "hello\n" ∧
    sanitize_llm_patch (ofStr "hello") ≠ [] ∧
    (ofStr "diff --git").isPrefixOf (sanitize_llm_patch (ofStr "hello")) = false := by
  exact ⟨rfl, by decide, rfl⟩

theorem sanitize_starts_at_token_witness :
    containsL (ofStr "diff --git")
        (sanitizePre (ofStr "Here is the patch:\n```diff\ndiff --git a/s b/s\n```")) = true ∧
    (ofStr "diff --git").isPrefixOf
        (sanitize_llm_patch (ofStr "Here is the patch:\n```diff\ndiff --git a/s b/s\n```")) = true := by
  exact ⟨by decide, sanitize_starts_at_token _ (by decide)⟩

/-- C9: apply_unified_diff always invokes the strict subprocess, invokes the
fuzzy/three-way subprocess exactly when the strict one fails, and on double
failure raises the message carrying both diagnostic streams. -/
theorem apply_escalation_order (g : GitOracle) (dt : PyStr) :
    (apply_unified_diff g dt).strictInvoked = true ∧
    (apply_unified_diff g dt).fuzzyInvoked
      = !(g.strict (canonicalize_llm_patch dt)).ok ∧
    ((g.strict (canonicalize_llm_patch dt)).ok = false →
      (g.fuzzy (canonicalize_llm_patch dt)).ok = false →
      (apply_unified_diff g dt).result =
        Except.error (applyFailMsg (g.strict (canonicalize_llm_patch dt)).stderr
          (g.fuzzy (canonicalize_llm_patch dt)).stderr)) := by
  by_cases hs : (g.strict (canonicalize_llm_patch dt)).ok = true
  · simp [apply_unified_diff, hs]
  · rw [Bool.not_eq_true] at hs
    by_cases hf : (g.fuzzy (canonicalize_llm_patch dt)).ok = true
    · simp [apply_unified_diff, hs, hf]
    · rw [Bool.not_eq_true] at hf
      simp [apply_unified_diff, hs, hf]

theorem apply_escalation_order_witness :
    (apply_unified_diff gitC9 (ofStr "no diff here")).strictInvoked = true ∧
    (apply_unified_diff gitC9 (ofStr "no diff here")).fuzzyInvoked = true ∧
    (apply_unified_diff gitC9 (ofStr "no diff here")).result =
      Except.error (applyFailMsg (ofStr "strict failed: corrupt patch")
        (ofStr "3way failed: no index")) := by
  have h := apply_escalation_order gitC9 (ofStr "no diff here")
  exact ⟨h.1, h.2.1, h.2.2 rfl rfl⟩

theorem attemptRest_genCalls (o : Oracles) (d m r : PyStr) (gens : Nat) :
    (attemptRest o d m r gens).genCalls ≤ gens + 1 := by
  unfold attemptRest
  dsimp only
  split
  · (try dsimp only); omega
  · split
    · (try dsimp only); omega
    · (try dsimp only)
      split
      · (try dsimp only); omega
      · split
        · (try dsimp only); omega
        · split
          · (try dsimp only); omega
          · (try dsimp only); omega

/-- C7: a run of attempt_llm_patch issues at most 3 generation requests to
the chat collaborator (initial, retry-if-empty, repair retry); when all
fail, it halts with a failure outcome without issuing another request. -/
theorem attempt_generation_bound (o : Oracles) :
    (attempt_llm_patch o).genCalls ≤ 3 := by
  unfold attempt_llm_patch
  dsimp only
  split
  · split
    · dsimp only; omega
    · exact le_trans (attemptRest_genCalls o _ _ _ 2) (by omega)
  · exact le_trans (attemptRest_genCalls o _ _ _ 1) (by omega)

theorem attemptRest_forbidden (o : Oracles) (d m r rs : PyStr) (gens : Nat)
    (hforbid : diff_touches_forbidden d = some rs) :
    attemptRest o d m r gens =
      ⟨false, m, ofStr "patch rejected: " ++ rs, preview r, gens, 0⟩ := by
  unfold attemptRest
  rw [hforbid]

/-- C5: when the diff generated from the first chat response touches a path
that fails the allow/deny policy, the whole attempt terminates with a
rejection outcome and apply_unified_diff is never invoked (no side effect on
the working tree). -/
theorem attempt_policy_rejection_no_apply (o : Oracles) (d r : PyStr)
    (hgen : llm_generate_patch o.jd (o.chat 0).1 = d)
    (hne : d ≠ [])
    (hforbid : diff_touches_forbidden d = some r) :
    (attempt_llm_patch o).applied = false ∧
    (attempt_llm_patch o).applyCalls = 0 ∧
    (attempt_llm_patch o).message = ofStr "patch rejected: " ++ r := by
  have hstep : attempt_llm_patch o = attemptRest o d ((o.chat 0).2) ((o.chat 0).1) 1 := by
    unfold attempt_llm_patch
    dsimp only
    rw [hgen, if_neg hne]
  rw [hstep, attemptRest_forbidden o d _ _ r 1 hforbid]
  exact ⟨rfl, rfl, rfl⟩

theorem attempt_policy_rejection_no_apply_witness :
    (attempt_llm_patch oracleC5).applied = false ∧
    (attempt_llm_patch oracleC5).applyCalls = 0 := by
  have h := attempt_policy_rejection_no_apply oracleC5
    (llm_generate_patch oracleC5.jd (oracleC5.chat 0).1)
    (ofStr "attempted to modify forbidden file: Dockerfile")
    rfl (by decide) (by decide)
  exact ⟨h.1, h.2.1⟩

/-- C8 (amended): after a policy-check failure the controller terminates
immediately with the rejection outcome; although the attempt counter (1) is
below the bound (3), it does NOT request new text from the generation
collaborator and does not re-enter the pipeline. -/
theorem attempt_policy_rejection_stops_generation (o : Oracles) (d r : PyStr)
    (hgen : llm_generate_patch o.jd (o.chat 0).1 = d)
    (hne : d ≠ [])
    (hforbid : diff_touches_forbidden d = some r) :
    (attempt_llm_patch o).genCalls = 1 ∧
    (attempt_llm_patch o).applied = false ∧
    (attempt_llm_patch o).message = ofStr "patch rejected: " ++ r := by
  have hstep : attempt_llm_patch o = attemptRest o d ((o.chat 0).2) ((o.chat 0).1) 1 := by
    unfold attempt_llm_patch
    dsimp only
    rw [hgen, if_neg hne]
  rw [hstep, attemptRest_forbidden o d _ _ r 1 hforbid]
  exact ⟨rfl, rfl, rfl⟩

theorem attempt_policy_rejection_stops_generation_witness :
    (attempt_llm_patch oracleC8w).genCalls = 1 ∧
    (attempt_llm_patch oracleC8w).applied = false := by
  have h := attempt_policy_rejection_stops_generation oracleC8w
    (llm_generate_patch oracleC8w.jd (oracleC8w.chat 0).1)
    (ofStr "attempted to modify forbidden file: pyproject.toml")
    rfl (by decide) (by decide)
  exact ⟨h.1, h.2.1⟩

/-- C8 counterexample: a run whose first generated patch touches the
deny-listed prefix .github/workflows/ is policy-rejected with the attempt
counter at 1 (below the bound of 3), and the controller halts there: no
second generation request is issued (genCalls stays 1), contradicting the
claim that it re-enters the pipeline with new RawText. -/
theorem attempt_policy_rejection_immediate_stop :
    (attempt_llm_patch oracleC8).applied = false ∧
    (attempt_llm_patch oracleC8).genCalls = 1 ∧
    (attempt_llm_patch oracleC8).message =
      ofStr "patch rejected: attempted to modify forbidden path: .github/workflows/ci.yml" := by
  exact ⟨rfl, rfl, rfl⟩

/-- C2 (code bug): canonicalization is NOT idempotent.  On a two-file diff,
the canonical output separates the serialized sections with a blank line;
re-canonicalizing that output treats the blank separator as an empty line
inside the first section's hunk and rewrites it to a stray bare addition
line, so the document drifts on every further pass. -/
theorem canonicalize_not_idempotent_two_files :
    canonicalize_llm_patch patchC2
      = ofStr "diff --git a/a b/a\n--- /dev/null\n+++ b/a\n@@ -0,0 +1,1 @@\n+x\n\ndiff --git a/b b/b\n--- /dev/null\n+++ b/b\n@@ -0,0 +1,1 @@\n+y\n" ∧
    canonicalize_llm_patch (canonicalize_llm_patch patchC2)
      = ofStr "diff --git a/a b/a\n--- /dev/null\n+++ b/a\n@@ -0,0 +1,1 @@\n+x\n+\n\ndiff --git a/b b/b\n--- /dev/null\n+++ b/b\n@@ -0,0 +1,1 @@\n+y\n" ∧
    canonicalize_llm_patch (canonicalize_llm_patch patchC2)
      ≠ canonicalize_llm_patch patchC2 := by
  exact ⟨rfl, rfl, by decide⟩

/-- C3 counterexample: in a modification (non-new-file) section, the empty
line inside the hunk is rewritten with the addition prefix, not with the
context prefix the claim requires for non-new-file sections. -/
theorem canonicalize_empty_line_modification_section :
    canonicalize_llm_patch patchC3
      = ofStr "diff --git a/f b/f\n--- a/f\n+++ b/f\n@@ -1,2 +1,2 @@\n x\n+\n z\n" ∧
    (pySplitlines (canonicalize_llm_patch patchC3))[5]? = some (ofStr "+") ∧
    (pySplitlines (canonicalize_llm_patch patchC3))[5]? ≠ some (ofStr " ") := by
  exact ⟨rfl, rfl, by decide⟩

/-- C4 counterexample: a document whose only file section has zero hunks is
not rejected: canonicalize_llm_patch returns it as a non-empty document and
raises no CanonicalizationError (the embedding is total and no error path
exists in the source). -/
theorem canonicalize_zero_hunk_returns_document :
    canonicalize_llm_patch (ofStr "diff --git a/f b/f\n--- a/f\n+++ b/f")
      = ofStr "diff --git a/f b/f\n--- a/f\n+++ b/f\n" ∧
    canonicalize_llm_patch (ofStr "diff --git a/f b/f\n--- a/f\n+++ b/f") ≠ [] := by
  exact ⟨rfl, by decide⟩

theorem canonicalize_bare_header_counts_additions_witness :
    canonSection [ofStr "diff --git a/src/a.py b/src/a.py", ofStr "--- /dev/null",
        ofStr "+++ b/src/a.py", ofStr "@@", ofStr "+import os", ofStr "print(1)"]
      = [ofStr "diff --git a/src/a.py b/src/a.py", ofStr "--- /dev/null",
        ofStr "+++ b/src/a.py", ofStr "@@ -0,0 +1,2 @@", ofStr "+import os",
        ofStr "+print(1)"] := by
  have h := canonicalize_bare_header_counts_additions
    (ofStr "diff --git a/src/a.py b/src/a.py") (ofStr "--- /dev/null")
    (ofStr "+++ b/src/a.py") [ofStr "+import os", ofStr "print(1)"]
    (by decide) (by decide) (by decide) (by decide) (by decide)
  exact h.trans (by decide)

theorem canonicalize_bare_header_zero_fallback_witness :
    canonSection [ofStr "diff --git a/tests/g b/tests/g", ofStr "--- a/tests/g",
        ofStr "+++ b/tests/g", ofStr "@@", ofStr "-obsolete"]
      = [ofStr "diff --git a/tests/g b/tests/g", ofStr "--- a/tests/g",
        ofStr "+++ b/tests/g", ofStr "@@ -0,0 +1,1 @@", ofStr "-obsolete"] := by
  have h := canonicalize_bare_header_zero_fallback
    (ofStr "diff --git a/tests/g b/tests/g") (ofStr "--- a/tests/g")
    (ofStr "+++ b/tests/g") [ofStr "-obsolete"]
    (by decide) (by decide) (by decide) (by decide) (by decide)
  exact h.trans (by decide)

theorem canonLine_empty_line_always_addition_witness :
    canonLine ⟨true, false, 0, []⟩ (ofStr "   ") = ⟨true, false, 0, [ofStr "+"]⟩ := by
  have h := canonLine_empty_line_always_addition ⟨true, false, 0, []⟩ (ofStr "   ")
    rfl (by decide)
  exact h.trans (by decide)

theorem canonicalize_zero_hunk_section_passthrough_witness :
    canonSection [ofStr "diff --git a/z b/z", ofStr "--- a/z", ofStr "+++ b/z"]
      = [ofStr "diff --git a/z b/z", ofStr "--- a/z", ofStr "+++ b/z"] := by
  have h := canonicalize_zero_hunk_section_passthrough
    [ofStr "diff --git a/z b/z", ofStr "--- a/z", ofStr "+++ b/z"] (by decide)
  exact h.trans (by decide)
